import Mathlib

/-!
# Verification of the cloud-cost-optimization Lambda

Shallow embedding of `src/Lambda/lambda_function.py`.  Python floats are
modelled as rationals (`ℚ`), the f-string rendering of a float is modelled by
`fmtRat` (shortest decimal form, matching Python `repr` on decimal-exact
values), the CloudWatch datapoint list is an explicit input to
`get_cpu_utilization`, and the handler's external effects (EC2 stop, DynamoDB
put, SNS publish) are reified as a list of `Action`s.
-/

namespace CloudCost

/-- One CloudWatch datapoint: a timestamp (modelled as an integer instant)
and the `Average` statistic. -/
structure Datapoint where
  timestamp : ℤ
  average : ℚ
deriving Repr, DecidableEq

/-- Embedding of `get_cpu_utilization`: CloudWatch's reply is the list of
datapoints; returns `None` when empty, otherwise the `Average` of the last
datapoint after sorting by `Timestamp`
(`sorted(response['Datapoints'], key=lambda x: x['Timestamp'])[-1]`). -/
def get_cpu_utilization (datapoints : List Datapoint) : Option ℚ :=
  if datapoints.isEmpty then
    none
  else
    ((datapoints.mergeSort (fun a b => a.timestamp ≤ b.timestamp)).getLast?).map
      (fun d => d.average)

/-- Smallest exponent `k` (searched up to 100) with `d ∣ 10 ^ k`:  the number
of decimal digits needed to write a rational with denominator `d` exactly. -/
def pow10Exp (d : ℕ) : Option ℕ :=
  (List.range 100).find? (fun k => decide (d ∣ 10 ^ k))

/-- Decimal rendering of a rational, modelling Python's `repr` of a float
value that is exactly representable in decimal: shortest decimal form, with
`.0` appended to integral values (`repr(3.0) = "3.0"`, `repr(3.2) = "3.2"`).
Falls back to `num/den` notation for non-decimal denominators (unreachable
for float-sourced values). -/
def fmtRat (q : ℚ) : String :=
  match pow10Exp q.den with
  | none => toString q
  | some k =>
    let sign := if q.num < 0 then "-" else ""
    let scaled : ℕ := q.num.natAbs * 10 ^ k / q.den
    if k = 0 then
      sign ++ toString scaled ++ ".0"
    else
      let s := toString scaled
      let s := if s.length ≤ k then
        String.mk (List.replicate (k + 1 - s.length) '0') ++ s
      else s
      sign ++ s.take (s.length - k) ++ "." ++ s.drop (s.length - k)

/-- The reason string `f"Low CPU: {cpu}%"`. -/
def lowCpuMsg (cpu : ℚ) : String :=
  "Low CPU: " ++ fmtRat cpu ++ "%"

/-- The core stop-decision policy, lifted from the inline `if/elif` chain of
`lambda_handler` (lines 53–57):

```python
reason = None
if hour >= 20 or hour < 8:
    reason = "After hours"
elif cpu is not None and cpu < CPU_THRESHOLD:
    reason = f"Low CPU: {cpu}%"
```
-/
def evaluate (hour : ℤ) (cpu : Option ℚ) (threshold : ℚ) : Option String :=
  if hour ≥ 20 ∨ hour < 8 then
    some "After hours"
  else
    match cpu with
    | some c => if c < threshold then some (lowCpuMsg c) else none
    | none => none

/-- Python truthiness of the `reason` variable (`if reason:`): `None` and the
empty string are falsy, any other string is truthy. -/
def truthy : Option String → Bool
  | none => false
  | some s => !(s == "")

/-- The spec's `Decision` record: the stop/record/notify branch of the
handler is taken exactly when `truthy reason`, so `should_stop` is the
truthiness of the computed reason. -/
structure Decision where
  instance_id : String
  should_stop : Bool
  reason : Option String
deriving Repr, DecidableEq

/-- The decision produced for one instance from the run-wide hour, the
instance's own CPU sample and the configured threshold. -/
def mkDecision (hour : ℤ) (cpu : Option ℚ) (threshold : ℚ)
    (instance_id : String) : Decision :=
  let r := evaluate hour cpu threshold
  { instance_id := instance_id, should_stop := truthy r, reason := r }

/-- Environment-derived configuration (`TABLE_NAME`, `SNS_TOPIC_ARN`,
`DRY_RUN`, `CPU_THRESHOLD`, `TIMEZONE`).  `CPU_THRESHOLD` is read with
`int(...)`, hence an integer. -/
structure Config where
  tableName : String
  snsTopicArn : String
  dryRun : Bool
  cpuThreshold : ℤ
deriving Repr, DecidableEq

/-- A candidate instance together with its metrics-lookup result (the value
`get_cpu_utilization(instance_id)` returned for it). -/
structure Instance where
  instanceId : String
  cpu : Option ℚ
deriving Repr, DecidableEq

/-- External effects performed by the handler loop, in order. -/
inductive Action where
  | stopInstances (instanceId : String) : Action
  | putItem (tableName instanceId timestamp reason : String) : Action
  | publish (topicArn subject message : String) : Action
deriving Repr, DecidableEq

/-- The handler's return value `{"statusCode": 200, "body": ...}`. -/
structure HandlerResult where
  statusCode : ℕ
  body : String
deriving Repr, DecidableEq

/-- The body of the per-instance loop of `lambda_handler`: compute the
reason, and if truthy, stop (unless `DRY_RUN`), write the audit item and
publish the notification. -/
def handleInstance (cfg : Config) (hour : ℤ) (nowStr : String)
    (inst : Instance) : List Action :=
  let reason := evaluate hour inst.cpu (cfg.cpuThreshold : ℚ)
  if truthy reason then
    match reason with
    | some r =>
        (if cfg.dryRun then [] else [Action.stopInstances inst.instanceId]) ++
        [Action.putItem cfg.tableName inst.instanceId nowStr r,
         Action.publish cfg.snsTopicArn "EC2 Optimization Alert"
           ("Stopped " ++ inst.instanceId ++ " due to " ++ r)]
    | none => []
  else []

/-- Embedding of `lambda_handler`: the clock lookup yields `hour` and the
string form of `now`; `describe_instances` yields the reservations (a list of
lists of instances, each with its CPU lookup result).  Returns the effects
performed and the constant success result. -/
def lambda_handler (cfg : Config) (hour : ℤ) (nowStr : String)
    (reservations : List (List Instance)) : List Action × HandlerResult :=
  ((reservations.map (fun res =>
      (res.map (handleInstance cfg hour nowStr)).flatten)).flatten,
   { statusCode := 200, body := "Optimization complete" })

/-! ## Helper lemmas -/

/-- The low-CPU reason string is never empty. -/
theorem lowCpuMsg_ne_empty (c : ℚ) : lowCpuMsg c ≠ "" := by
  intro h
  have hlen := congrArg String.length h
  rw [lowCpuMsg, String.length_append, String.length_append] at hlen
  have h9 : ("Low CPU: " : String).length = 9 := rfl
  have h1 : ("%" : String).length = 1 := rfl
  have h0 : ("" : String).length = 0 := rfl
  omega

/-- `evaluate` never produces the empty string as a reason, so Python
truthiness of the reason coincides with it being non-`None`. -/
theorem evaluate_ne_some_empty (hour : ℤ) (cpu : Option ℚ) (t : ℚ) :
    evaluate hour cpu t ≠ some "" := by
  unfold evaluate
  split
  · decide
  · match cpu with
    | none => simp
    | some c =>
      by_cases hct : c < t
      · simp only [hct, if_true, ne_eq, Option.some.injEq]
        exact lowCpuMsg_ne_empty c
      · simp [hct]

/-- In a `Pairwise R` list, every element is the last element or is related
to it by `R`. -/
theorem pairwise_rel_getLast {α : Type} {R : α → α → Prop} :
    ∀ (l : List α) (h : l ≠ []) (_ : l.Pairwise R) (a : α), a ∈ l →
      a = l.getLast h ∨ R a (l.getLast h) := by
  intro l
  induction l with
  | nil => intro h; exact absurd rfl h
  | cons x xs ih =>
    intro h hp a ha
    cases xs with
    | nil =>
      rw [List.mem_singleton] at ha
      subst ha
      exact Or.inl rfl
    | cons y ys =>
      have hxs : y :: ys ≠ [] := List.cons_ne_nil y ys
      rw [List.getLast_cons hxs]
      rcases List.mem_cons.mp ha with rfl | hmem
      · exact Or.inr (List.rel_of_pairwise_cons hp (List.getLast_mem hxs))
      · exact ih hxs hp.of_cons a hmem

/-! ## Claim theorems -/

/-- C1: for every hour in `[20,23] ∪ [0,7]`, for every CPU sample (present
or absent) and every threshold, the stop decision is `some "After hours"`:
the time-based check is evaluated first and takes precedence over the CPU
check, so the reported reason is never the CPU-based one. -/
theorem after_hours_takes_precedence (hour : ℤ)
    (h : (20 ≤ hour ∧ hour ≤ 23) ∨ (0 ≤ hour ∧ hour ≤ 7))
    (cpu : Option ℚ) (threshold : ℚ) :
    evaluate hour cpu threshold = some "After hours" := by
  have hc : hour ≥ 20 ∨ hour < 8 := by
    rcases h with ⟨h1, _⟩ | ⟨_, h2⟩
    · exact Or.inl h1
    · exact Or.inr (by omega)
  unfold evaluate
  rw [if_pos hc]

/-- Witness for C1 at hour 22 with a CPU sample far below the threshold:
the reason is still the time-based one. -/
theorem after_hours_takes_precedence_witness :
    ((20 ≤ (22 : ℤ) ∧ (22 : ℤ) ≤ 23) ∨ (0 ≤ (22 : ℤ) ∧ (22 : ℤ) ≤ 7)) ∧
    evaluate 22 (some 1) 50 = some "After hours" :=
  ⟨Or.inl (by decide),
   after_hours_takes_precedence 22 (Or.inl (by decide)) (some 1) 50⟩

/-- C2: for every hour in `[8,19]` with a CPU sample `c` present and
threshold `t`, the decision is `some (lowCpuMsg c)` (the raw value,
unrounded) iff `c < t` (strict), and `none` otherwise; in particular
`evaluate 8 (some 10) 10 = none` and
`evaluate 14 (some 3.2) 10 = some "Low CPU: 3.2%"`. -/
theorem in_hours_low_cpu_iff (hour : ℤ) (h8 : 8 ≤ hour) (h19 : hour ≤ 19)
    (c t : ℚ) :
    (evaluate hour (some c) t = some (lowCpuMsg c) ↔ c < t) ∧
    (¬ c < t → evaluate hour (some c) t = none) ∧
    evaluate 8 (some 10) 10 = none ∧
    evaluate 14 (some 3.2) 10 = some "Low CPU: 3.2%" := by
  have hc : ¬(hour ≥ 20 ∨ hour < 8) := by omega
  refine ⟨?_, ?_, rfl, ?_⟩
  · unfold evaluate
    rw [if_neg hc]
    by_cases hct : c < t
    · simp [hct]
    · simp [hct]
  · intro hct
    unfold evaluate
    rw [if_neg hc]
    simp [hct]
  · rw [(by norm_num [Rat.mkRat_eq_divInt, Rat.divInt_eq_div] :
        (3.2 : ℚ) = mkRat 16 5)]
    rfl

/-- Witness for C2 at hour 14 with sample 1 and threshold 2. -/
theorem in_hours_low_cpu_iff_witness :
    ((8 : ℤ) ≤ 14 ∧ (14 : ℤ) ≤ 19 ∧ (1 : ℚ) < 2) ∧
    evaluate 14 (some 1) 2 = some (lowCpuMsg 1) :=
  ⟨⟨by decide, by decide, by decide⟩,
   (in_hours_low_cpu_iff 14 (by decide) (by decide) 1 2).1.mpr (by decide)⟩

/-- C3: for every hour in `[8,19]`, when no CPU sample is present the
decision is `none`: absence of CPU data is never by itself a stop reason. -/
theorem in_hours_no_sample_no_action (hour : ℤ) (h8 : 8 ≤ hour)
    (h19 : hour ≤ 19) (t : ℚ) :
    evaluate hour none t = none := by
  unfold evaluate
  rw [if_neg (by omega : ¬(hour ≥ 20 ∨ hour < 8))]

/-- Witness for C3 at hour 14. -/
theorem in_hours_no_sample_no_action_witness :
    ((8 : ℤ) ≤ 14 ∧ (14 : ℤ) ≤ 19) ∧ evaluate 14 none 10 = none :=
  ⟨by decide, in_hours_no_sample_no_action 14 (by decide) (by decide) 10⟩

/-- C4: the evaluator is a total pure function over its typed inputs: for
every integer hour, optional rational CPU sample and rational threshold it
yields a well-defined `Option String` — `none`, the after-hours reason, or
the low-CPU reason for the very sample supplied — and the result is
uniquely determined by the inputs. -/
theorem evaluate_total_shape (hour : ℤ) (cpu : Option ℚ) (t : ℚ) :
    (evaluate hour cpu t = none ∨ evaluate hour cpu t = some "After hours" ∨
      ∃ c, cpu = some c ∧ evaluate hour cpu t = some (lowCpuMsg c)) ∧
    ∀ r, evaluate hour cpu t = r → r = evaluate hour cpu t := by
  constructor
  · unfold evaluate
    split
    · exact Or.inr (Or.inl rfl)
    · match cpu with
      | none => exact Or.inl rfl
      | some c =>
        by_cases hct : c < t
        · exact Or.inr (Or.inr ⟨c, rfl, by simp [hct]⟩)
        · exact Or.inl (by simp [hct])
  · intro r hr
    exact hr.symm

/-- C10: whatever the configuration, hour and instance population, the
handler's return value is exactly
`{"statusCode": 200, "body": "Optimization complete"}`: it carries no
information about the decisions made. -/
theorem handler_result_constant (cfg : Config) (hour : ℤ) (nowStr : String)
    (reservations : List (List Instance)) :
    (lambda_handler cfg hour nowStr reservations).2 =
      { statusCode := 200, body := "Optimization complete" } := rfl

/-- C5: every `Decision` produced satisfies the invariant that its reason is
non-null iff `should_stop` is true: the handler's stop/record/notify branch
(`if reason:`, i.e. `should_stop`) is taken exactly when the computed reason
is not `None`. -/
theorem decision_reason_iff_should_stop (hour : ℤ) (cpu : Option ℚ) (t : ℚ)
    (id : String) :
    (mkDecision hour cpu t id).should_stop = true ↔
      (mkDecision hour cpu t id).reason ≠ none := by
  show truthy (evaluate hour cpu t) = true ↔ evaluate hour cpu t ≠ none
  cases hev : evaluate hour cpu t with
  | none => simp [truthy]
  | some s =>
    have hs : s ≠ "" := fun h => evaluate_ne_some_empty hour cpu t (h ▸ hev)
    simp [truthy, hs]

/-- C6: for an instance whose decision is `some reason`, setting the dry-run
flag suppresses the stop call while the audit record and the notification
are still emitted; with the flag clear the output is the same list with the
stop action prepended — nothing else changes. -/
theorem dry_run_suppresses_stop_only (cfg : Config) (hour : ℤ)
    (nowStr : String) (inst : Instance) (r : String)
    (h : evaluate hour inst.cpu (cfg.cpuThreshold : ℚ) = some r) :
    handleInstance { cfg with dryRun := true } hour nowStr inst =
      [Action.putItem cfg.tableName inst.instanceId nowStr r,
       Action.publish cfg.snsTopicArn "EC2 Optimization Alert"
         ("Stopped " ++ inst.instanceId ++ " due to " ++ r)] ∧
    handleInstance { cfg with dryRun := false } hour nowStr inst =
      Action.stopInstances inst.instanceId ::
        handleInstance { cfg with dryRun := true } hour nowStr inst := by
  have hr : r ≠ "" := fun he =>
    evaluate_ne_some_empty hour inst.cpu (cfg.cpuThreshold : ℚ) (he ▸ h)
  constructor <;> simp [handleInstance, h, truthy, hr]

/-- Witness for C6: after-hours instance, concrete configuration. -/
theorem dry_run_suppresses_stop_only_witness :
    evaluate 22 (Instance.mk "i-1" none).cpu
        ((Config.mk "T" "A" true 10).cpuThreshold : ℚ) = some "After hours" ∧
    handleInstance { Config.mk "T" "A" true 10 with dryRun := true } 22 "ts"
        (Instance.mk "i-1" none) =
      [Action.putItem "T" "i-1" "ts" "After hours",
       Action.publish "A" "EC2 Optimization Alert"
         ("Stopped " ++ "i-1" ++ " due to " ++ "After hours")] ∧
    handleInstance { Config.mk "T" "A" true 10 with dryRun := false } 22 "ts"
        (Instance.mk "i-1" none) =
      Action.stopInstances "i-1" ::
        handleInstance { Config.mk "T" "A" true 10 with dryRun := true } 22
          "ts" (Instance.mk "i-1" none) :=
  ⟨rfl,
   dry_run_suppresses_stop_only (Config.mk "T" "A" true 10) 22 "ts"
     (Instance.mk "i-1" none) "After hours" rfl⟩

/-- C7: for every instance with a stop decision `some r`, the published
notification message is exactly `"Stopped {instance_id} due to {r}"`, and
every publish action the handler emits for that instance carries exactly
that message. -/
theorem notification_message_format (cfg : Config) (hour : ℤ)
    (nowStr : String) (inst : Instance) (r : String)
    (h : evaluate hour inst.cpu (cfg.cpuThreshold : ℚ) = some r) :
    Action.publish cfg.snsTopicArn "EC2 Optimization Alert"
        ("Stopped " ++ inst.instanceId ++ " due to " ++ r) ∈
      handleInstance cfg hour nowStr inst ∧
    ∀ topic subject message,
      Action.publish topic subject message ∈
          handleInstance cfg hour nowStr inst →
        message = "Stopped " ++ inst.instanceId ++ " due to " ++ r := by
  have hr : r ≠ "" := fun he =>
    evaluate_ne_some_empty hour inst.cpu (cfg.cpuThreshold : ℚ) (he ▸ h)
  cases hd : cfg.dryRun with
  | true =>
    constructor
    · simp [handleInstance, h, truthy, hr, hd]
    · intro topic subject message hmem
      simp [handleInstance, h, truthy, hr, hd] at hmem
      exact hmem.2.2
  | false =>
    constructor
    · simp [handleInstance, h, truthy, hr, hd]
    · intro topic subject message hmem
      simp [handleInstance, h, truthy, hr, hd] at hmem
      exact hmem.2.2

/-- Witness for C7: after-hours instance, concrete configuration. -/
theorem notification_message_format_witness :
    evaluate 22 (Instance.mk "i-1" none).cpu
        ((Config.mk "T" "A" false 10).cpuThreshold : ℚ) = some "After hours" ∧
    Action.publish "A" "EC2 Optimization Alert"
        ("Stopped " ++ "i-1" ++ " due to " ++ "After hours") ∈
      handleInstance (Config.mk "T" "A" false 10) 22 "ts"
        (Instance.mk "i-1" none) :=
  ⟨rfl,
   (notification_message_format (Config.mk "T" "A" false 10) 22 "ts"
     (Instance.mk "i-1" none) "After hours" rfl).1⟩

/-- C8: the metrics lookup returns `none` on an empty datapoint list, and
otherwise the `Average` of a datapoint of the list whose `Timestamp` is
maximal: sorting by timestamp and taking the last element yields a
datapoint no other datapoint exceeds. -/
theorem get_cpu_utilization_latest (datapoints : List Datapoint) :
    (datapoints = [] → get_cpu_utilization datapoints = none) ∧
    (datapoints ≠ [] → ∃ d ∈ datapoints,
      get_cpu_utilization datapoints = some d.average ∧
      ∀ e ∈ datapoints, e.timestamp ≤ d.timestamp) := by
  constructor
  · intro h
    subst h
    rfl
  · intro hne
    have hne' :
        datapoints.mergeSort (fun a b => a.timestamp ≤ b.timestamp) ≠ [] := by
      intro hnil
      have hp := List.mergeSort_perm datapoints
        (fun a b => decide (a.timestamp ≤ b.timestamp))
      rw [hnil] at hp
      exact hne hp.symm.eq_nil
    have htrans : ∀ (a b c : Datapoint),
        decide (a.timestamp ≤ b.timestamp) = true →
        decide (b.timestamp ≤ c.timestamp) = true →
        decide (a.timestamp ≤ c.timestamp) = true := by
      intro a b c hab hbc
      exact decide_eq_true (le_trans (of_decide_eq_true hab)
        (of_decide_eq_true hbc))
    have htotal : ∀ (a b : Datapoint),
        (decide (a.timestamp ≤ b.timestamp) ||
          decide (b.timestamp ≤ a.timestamp)) = true := by
      intro a b
      rcases le_total a.timestamp b.timestamp with hab | hab
      · rw [decide_eq_true hab, Bool.true_or]
      · rw [decide_eq_true hab, Bool.or_true]
    have hsorted :=
      @List.sorted_mergeSort Datapoint
        (fun a b => decide (a.timestamp ≤ b.timestamp)) htrans htotal
        datapoints
    refine ⟨(datapoints.mergeSort
        (fun a b => a.timestamp ≤ b.timestamp)).getLast hne', ?_, ?_, ?_⟩
    · exact List.mem_mergeSort.mp (List.getLast_mem hne')
    · unfold get_cpu_utilization
      rw [if_neg (by simpa using hne)]
      rw [List.getLast?_eq_getLast _ hne']
      rfl
    · intro e he
      have he' : e ∈ datapoints.mergeSort
          (fun a b => a.timestamp ≤ b.timestamp) := List.mem_mergeSort.mpr he
      rcases pairwise_rel_getLast _ hne' hsorted e he' with heq | hrel
      · rw [heq]
      · exact of_decide_eq_true hrel

/-- Witness for C8: empty list gives `none`; on a two-element list the
datapoint with the greatest timestamp is selected. -/
theorem get_cpu_utilization_latest_witness :
    get_cpu_utilization ([] : List Datapoint) = none ∧
    ∃ d ∈ [Datapoint.mk 3 5, Datapoint.mk 1 7],
      get_cpu_utilization [Datapoint.mk 3 5, Datapoint.mk 1 7] =
        some d.average ∧
      ∀ e ∈ [Datapoint.mk 3 5, Datapoint.mk 1 7],
        e.timestamp ≤ d.timestamp :=
  ⟨(get_cpu_utilization_latest []).1 rfl,
   (get_cpu_utilization_latest [Datapoint.mk 3 5, Datapoint.mk 1 7]).2
     (by simp)⟩

/-- C9: each instance's decision depends only on the run-wide hour, its own
CPU sample and the threshold: the handler's effect list decomposes around
any instance independently of the instances before and after it, and
permuting the instance list permutes the per-instance decisions
correspondingly, so no decision changes with evaluation order. -/
theorem decisions_order_independent (cfg : Config) (hour : ℤ)
    (nowStr : String) :
    (∀ (pre post : List Instance) (inst : Instance),
      (lambda_handler cfg hour nowStr [pre ++ inst :: post]).1 =
        (pre.map (handleInstance cfg hour nowStr)).flatten ++
          handleInstance cfg hour nowStr inst ++
          (post.map (handleInstance cfg hour nowStr)).flatten) ∧
    (∀ l₁ l₂ : List Instance, l₁.Perm l₂ →
      (l₁.map (fun i =>
        mkDecision hour i.cpu (cfg.cpuThreshold : ℚ) i.instanceId)).Perm
      (l₂.map (fun i =>
        mkDecision hour i.cpu (cfg.cpuThreshold : ℚ) i.instanceId))) := by
  constructor
  · intro pre post inst
    simp [lambda_handler, List.map_append, List.flatten_append,
      List.append_assoc]
  · intro l₁ l₂ hp
    exact hp.map _

/-- Witness for C9: a two-element instance list and its swap. -/
theorem decisions_order_independent_witness :
    ([Instance.mk "a" none, Instance.mk "b" (some 1)].Perm
      [Instance.mk "b" (some 1), Instance.mk "a" none]) ∧
    ([Instance.mk "a" none, Instance.mk "b" (some 1)].map (fun i =>
        mkDecision 10 i.cpu (((Config.mk "T" "A" false 5).cpuThreshold : ℤ) : ℚ)
          i.instanceId)).Perm
      ([Instance.mk "b" (some 1), Instance.mk "a" none].map (fun i =>
        mkDecision 10 i.cpu (((Config.mk "T" "A" false 5).cpuThreshold : ℤ) : ℚ)
          i.instanceId)) :=
  ⟨List.Perm.swap _ _ _,
   (decisions_order_independent (Config.mk "T" "A" false 5) 10 "ts").2 _ _
     (List.Perm.swap _ _ _)⟩

end CloudCost
